import Mathlib

/-!
Shallow embedding of the tui-snake game core (`src/main.py`) and proofs
about its state-transition logic.

Modelling conventions:
* Python `int` is `Int`; coordinates may go negative (the head may step
  outside the grid), so `Point` carries `Int` coordinates.
* `collections.deque` of body parts is a `List BodyPart`, index 0 being the
  left end of the deque (the snake's tail); the Python head `body[-1]` is
  the last list element, `popleft` is `List.tail`, `append` is `++ [x]`.
* The `random.randint` stream behind `new_apple` is an explicit list of
  candidate points `rands`; each recursive retry consumes one candidate.
  Running out of candidates models non-termination of the unbounded
  recursion and is reported as `Err.randsExhausted`.
* A Python `IndexError` (indexing `body[-1]` of an empty deque) is
  reported as `Err.indexError`.  Functions that can fail this way return
  `Except Err _`.
-/

set_option autoImplicit false

namespace TuiSnake

/-- Python `Direction(IntEnum)` with members UP, DOWN, RIGHT, LEFT. -/
inductive Direction where
  | UP
  | DOWN
  | RIGHT
  | LEFT
  deriving DecidableEq

/-- `Direction.opposite` from `src/main.py` lines 19-23. -/
def Direction.opposite (self other : Direction) : Bool :=
  (self == Direction.UP && other == Direction.DOWN)
    || (self == Direction.DOWN && other == Direction.UP)
    || (self == Direction.RIGHT && other == Direction.LEFT)
    || (self == Direction.LEFT && other == Direction.RIGHT)

/-- Python `Point` dataclass: a pair of integers. -/
structure Point where
  x : Int
  y : Int
  deriving DecidableEq

/-- `Point.__add__`: componentwise vector addition. -/
def Point.add (self other : Point) : Point :=
  ⟨self.x + other.x, self.y + other.y⟩

instance : Add Point := ⟨Point.add⟩

/-- The `units` dictionary mapping each direction to its displacement. -/
def units : Direction → Point
  | Direction.UP => ⟨0, -1⟩
  | Direction.DOWN => ⟨0, 1⟩
  | Direction.RIGHT => ⟨1, 0⟩
  | Direction.LEFT => ⟨-1, 0⟩

/-- Python `BodyPart` dataclass: a point plus the facing direction. -/
structure BodyPart where
  point : Point
  direction : Direction
  deriving DecidableEq

/-- Python `Snake` dataclass: a deque of body parts, tail first, head last. -/
structure Snake where
  body : List BodyPart
  deriving DecidableEq

/-- `Snake.body_points`: the list of points occupied by the body. -/
def Snake.body_points (s : Snake) : List Point :=
  s.body.map (fun part => part.point)

/-- Python `Board` dataclass. -/
structure Board where
  width : Int
  height : Int
  obstacles : List Point
  snake : Snake
  apples : List Point
  score : Int
  deriving DecidableEq

/-- Failure modes of the embedded partial functions: `indexError` models a
Python `IndexError` on `body[-1]` of an empty deque; `randsExhausted` models
the random-candidate stream running out, i.e. an execution of the unbounded
`new_apple` recursion that has not yet terminated. -/
inductive Err where
  | indexError
  | randsExhausted
  deriving DecidableEq

instance {ε α : Type} [DecidableEq ε] [DecidableEq α] : DecidableEq (Except ε α) :=
  fun a b =>
    match a, b with
    | Except.error e1, Except.error e2 =>
      if h : e1 = e2 then isTrue (by rw [h])
      else isFalse (by intro hc; injection hc; contradiction)
    | Except.error _, Except.ok _ => isFalse (by intro hc; cases hc)
    | Except.ok _, Except.error _ => isFalse (by intro hc; cases hc)
    | Except.ok a1, Except.ok a2 =>
      if h : a1 = a2 then isTrue (by rw [h])
      else isFalse (by intro hc; injection hc; contradiction)

/-- `Board.within_borders` from `src/main.py` lines 61-65. -/
def Board.within_borders (b : Board) (point : Point) : Bool :=
  decide (0 ≤ point.x ∧ point.x < b.width ∧ 0 ≤ point.y ∧ point.y < b.height)

/-- `Board.new_apple` from `src/main.py` lines 89-96, with the
`randint`-generated candidates made explicit as `rands`: each retry consumes
the next candidate, a candidate colliding with an obstacle, an apple or a
snake body point is rejected and the function recurses, and an accepted
candidate is appended to the apple list. -/
def Board.new_apple (b : Board) (rands : List Point) : Except Err Board :=
  match rands with
  | [] => Except.error Err.randsExhausted
  | apple :: rest =>
    if apple ∈ b.obstacles ∨ apple ∈ b.apples ∨ apple ∈ b.snake.body_points then
      b.new_apple rest
    else
      Except.ok { b with apples := b.apples ++ [apple] }

/-- Lines 74-79 of `Board.update`: if `next_pos` is an apple, remove it,
spawn a replacement and increment the score; otherwise pop the tail
(`popleft`). -/
def Board.applePhase (b : Board) (next_pos : Point) (rands : List Point) :
    Except Err Board :=
  if next_pos ∈ b.apples then
    match Board.new_apple { b with apples := b.apples.erase next_pos } rands with
    | Except.error e => Except.error e
    | Except.ok b2 => Except.ok { b2 with score := b2.score + 1 }
  else
    Except.ok { b with snake := ⟨b.snake.body.tail⟩ }

/-- Lines 81-87 of `Board.update`: the death check against the adjusted body,
then (on survival) overwriting the previous head's direction (`body[-1]`,
an `IndexError` if the body is empty) and appending the new head. -/
def Board.deathOrMove (b1 : Board) (direction : Direction) (next_pos : Point) :
    Except Err (Board × Bool) :=
  if next_pos ∈ b1.obstacles ∨ next_pos ∈ b1.snake.body_points then
    Except.ok (b1, false)
  else
    match b1.snake.body.getLast? with
    | none => Except.error Err.indexError
    | some lp2 =>
      Except.ok
        ({ b1 with
            snake :=
              ⟨b1.snake.body.dropLast ++ [⟨lp2.point, direction⟩, ⟨next_pos, direction⟩]⟩ },
          true)

/-- `Board.update` from `src/main.py` lines 67-87.  `body[-1]` of an empty
deque is an `IndexError`; a reversal input returns `true` immediately;
otherwise the apple/tail phase runs, then the death check and the move. -/
def Board.update (b : Board) (direction : Direction) (shifted : Bool)
    (rands : List Point) : Except Err (Board × Bool) :=
  match b.snake.body.getLast? with
  | none => Except.error Err.indexError
  | some lastPart =>
    if lastPart.direction.opposite direction then
      Except.ok (b, true)
    else
      match b.applePhase (lastPart.point + units direction) rands with
      | Except.error e => Except.error e
      | Except.ok b1 => b1.deathOrMove direction (lastPart.point + units direction)

/-- The perimeter-wall construction of `Game.init` (`src/main.py` lines
148-151): for each grid row `i` and column `j`, append `Point(j, i)` when the
cell is on the border. -/
def Game.initObstacles (height width : Int) : List Point :=
  (List.range height.toNat).flatMap fun (i : Nat) =>
    (List.range width.toNat).filterMap fun (j : Nat) =>
      if (i : Int) = 0 ∨ (i : Int) = height - 1 ∨ (j : Int) = 0 ∨ (j : Int) = width - 1 then
        some ⟨(j : Int), (i : Int)⟩
      else
        none

/-- `Game.init` from `src/main.py` lines 142-151 (the Board construction;
the curses calls are external I/O and not part of the state model).  Python
`//` is floor division, `Int.fdiv`. -/
def Game.init (height width : Int) : Board :=
  { width := width
    height := height
    obstacles := Game.initObstacles height width
    snake := ⟨[⟨⟨1, 1⟩, Direction.RIGHT⟩, ⟨⟨2, 1⟩, Direction.RIGHT⟩, ⟨⟨3, 1⟩, Direction.RIGHT⟩]⟩
    apples := [⟨Int.fdiv width 2, Int.fdiv height 2⟩]
    score := 0 }

/-- The snake body as left by steps 3/4 of the update rule (spec §4.2): on an
apple move the body is untouched, otherwise the tail has been popped. -/
def postStepSnake (b : Board) (next_pos : Point) : Snake :=
  if next_pos ∈ b.apples then b.snake else ⟨b.snake.body.tail⟩

/-! ### Characterization lemmas for the embedded operations -/

theorem new_apple_ok (b : Board) (rands : List Point) (b' : Board)
    (h : b.new_apple rands = Except.ok b') :
    ∃ a ∈ rands,
      b' = { b with apples := b.apples ++ [a] } ∧
        a ∉ b.obstacles ∧ a ∉ b.apples ∧ a ∉ b.snake.body_points := by
  induction rands with
  | nil => exact Except.noConfusion h
  | cons p rest ih =>
    rw [Board.new_apple] at h
    by_cases hp : p ∈ b.obstacles ∨ p ∈ b.apples ∨ p ∈ b.snake.body_points
    · rw [if_pos hp] at h
      obtain ⟨a, ha, h1, h2, h3, h4⟩ := ih h
      exact ⟨a, List.mem_cons_of_mem _ ha, h1, h2, h3, h4⟩
    · rw [if_neg hp] at h
      injection h with h
      push_neg at hp
      exact ⟨p, List.mem_cons_self _ _, h.symm, hp.1, hp.2.1, hp.2.2⟩

theorem new_apple_error_eq (b : Board) (rands : List Point) (e : Err)
    (h : b.new_apple rands = Except.error e) : e = Err.randsExhausted := by
  induction rands with
  | nil =>
    rw [Board.new_apple] at h
    injection h with h
    exact h.symm
  | cons p rest ih =>
    rw [Board.new_apple] at h
    by_cases hp : p ∈ b.obstacles ∨ p ∈ b.apples ∨ p ∈ b.snake.body_points
    · rw [if_pos hp] at h
      exact ih h
    · rw [if_neg hp] at h
      exact Except.noConfusion h

theorem new_apple_full (b : Board) (rands : List Point)
    (h : ∀ p ∈ rands, p ∈ b.obstacles ∨ p ∈ b.apples ∨ p ∈ b.snake.body_points) :
    b.new_apple rands = Except.error Err.randsExhausted := by
  induction rands with
  | nil => rfl
  | cons p rest ih =>
    rw [Board.new_apple, if_pos (h p (List.mem_cons_self _ _))]
    exact ih fun q hq => h q (List.mem_cons_of_mem _ hq)

theorem new_apple_exists_ok (b : Board) (rands : List Point)
    (h : ∃ p ∈ rands, ¬(p ∈ b.obstacles ∨ p ∈ b.apples ∨ p ∈ b.snake.body_points)) :
    ∃ b', b.new_apple rands = Except.ok b' := by
  induction rands with
  | nil =>
    obtain ⟨p, hp, _⟩ := h
    exact absurd hp (List.not_mem_nil p)
  | cons p rest ih =>
    rw [Board.new_apple]
    by_cases hp : p ∈ b.obstacles ∨ p ∈ b.apples ∨ p ∈ b.snake.body_points
    · rw [if_pos hp]
      apply ih
      obtain ⟨q, hq, hfree⟩ := h
      rcases List.mem_cons.mp hq with rfl | hq2
      · exact absurd hp hfree
      · exact ⟨q, hq2, hfree⟩
    · rw [if_neg hp]
      exact ⟨_, rfl⟩

theorem applePhase_ok (b : Board) (next_pos : Point) (rands : List Point) (b1 : Board)
    (h : b.applePhase next_pos rands = Except.ok b1) :
    (next_pos ∈ b.apples ∧
      ∃ a, a ∉ b.obstacles ∧ a ∉ b.apples.erase next_pos ∧ a ∉ b.snake.body_points ∧
        b1 = { b with apples := b.apples.erase next_pos ++ [a], score := b.score + 1 })
    ∨ (next_pos ∉ b.apples ∧ b1 = { b with snake := ⟨b.snake.body.tail⟩ }) := by
  by_cases hap : next_pos ∈ b.apples
  · left
    refine ⟨hap, ?_⟩
    rw [Board.applePhase, if_pos hap] at h
    cases hna : Board.new_apple { b with apples := b.apples.erase next_pos } rands with
    | error e =>
      rw [hna] at h
      exact Except.noConfusion h
    | ok b2 =>
      rw [hna] at h
      injection h with h
      obtain ⟨a, _, h1, h2, h3, h4⟩ := new_apple_ok _ _ _ hna
      subst h1
      exact ⟨a, h2, h3, h4, h.symm⟩
  · right
    rw [Board.applePhase, if_neg hap] at h
    injection h with h
    exact ⟨hap, h.symm⟩

theorem applePhase_error_eq (b : Board) (next_pos : Point) (rands : List Point) (e : Err)
    (h : b.applePhase next_pos rands = Except.error e) : e = Err.randsExhausted := by
  rw [Board.applePhase] at h
  by_cases hap : next_pos ∈ b.apples
  · rw [if_pos hap] at h
    cases hna : Board.new_apple { b with apples := b.apples.erase next_pos } rands with
    | error e2 =>
      rw [hna] at h
      injection h with h
      subst h
      exact new_apple_error_eq _ _ _ hna
    | ok b2 =>
      rw [hna] at h
      exact Except.noConfusion h
  · rw [if_neg hap] at h
    exact Except.noConfusion h

theorem applePhase_preserves (b : Board) (next_pos : Point) (rands : List Point) (b1 : Board)
    (h : b.applePhase next_pos rands = Except.ok b1) :
    b1.width = b.width ∧ b1.height = b.height ∧ b1.obstacles = b.obstacles := by
  rcases applePhase_ok b next_pos rands b1 h with ⟨_, a, _, _, _, hb1⟩ | ⟨_, hb1⟩ <;>
    subst hb1 <;> exact ⟨rfl, rfl, rfl⟩

theorem deathOrMove_ok (b1 : Board) (d : Direction) (next_pos : Point)
    (b' : Board) (alive : Bool)
    (h : b1.deathOrMove d next_pos = Except.ok (b', alive)) :
    (alive = false ∧ (next_pos ∈ b1.obstacles ∨ next_pos ∈ b1.snake.body_points) ∧ b' = b1)
    ∨ (alive = true ∧ ¬(next_pos ∈ b1.obstacles ∨ next_pos ∈ b1.snake.body_points) ∧
        ∃ lp2, b1.snake.body.getLast? = some lp2 ∧
          b' = { b1 with
                  snake := ⟨b1.snake.body.dropLast ++ [⟨lp2.point, d⟩, ⟨next_pos, d⟩]⟩ }) := by
  rw [Board.deathOrMove] at h
  by_cases hd : next_pos ∈ b1.obstacles ∨ next_pos ∈ b1.snake.body_points
  · rw [if_pos hd] at h
    injection h with h
    injection h with h1 h2
    exact Or.inl ⟨h2.symm, hd, h1.symm⟩
  · rw [if_neg hd] at h
    cases hl : b1.snake.body.getLast? with
    | none =>
      rw [hl] at h
      exact Except.noConfusion h
    | some lp2 =>
      rw [hl] at h
      injection h with h
      injection h with h1 h2
      exact Or.inr ⟨h2.symm, hd, lp2, rfl, h1.symm⟩

theorem update_ok_elim (b : Board) (d : Direction) (s : Bool) (rands : List Point)
    (lp : BodyPart) (hlast : b.snake.body.getLast? = some lp)
    (hrev : lp.direction.opposite d = false)
    (b' : Board) (alive : Bool)
    (hup : b.update d s rands = Except.ok (b', alive)) :
    ∃ b1, b.applePhase (lp.point + units d) rands = Except.ok b1 ∧
      b1.deathOrMove d (lp.point + units d) = Except.ok (b', alive) := by
  rw [Board.update, hlast] at hup
  simp only [hrev, Bool.false_eq_true, if_false] at hup
  cases hq : b.applePhase (lp.point + units d) rands with
  | error e =>
    rw [hq] at hup
    exact Except.noConfusion hup
  | ok b1 =>
    rw [hq] at hup
    exact ⟨b1, rfl, hup⟩

/-! ### Claims -/

/-- Claim C1: for every board whose snake is non-empty, calling `Board.update`
with a direction opposite to the head segment's stored facing direction
returns true and leaves the entire board state unchanged (the result board is
the input board itself: body, score, apples, obstacles, width and height are
all unaltered). -/
theorem claim_C1 (b : Board) (d : Direction) (s : Bool) (rands : List Point)
    (lp : BodyPart) (hlast : b.snake.body.getLast? = some lp)
    (hrev : lp.direction.opposite d = true) :
    b.update d s rands = Except.ok (b, true) := by
  rw [Board.update, hlast]
  simp only [hrev, if_true]

/-- Witness for C1: on the freshly initialized 30×20 board (head at (3,1)
facing RIGHT), an attempted LEFT reversal returns true and the board is
unchanged. -/
theorem claim_C1_witness :
    (Game.init 20 30).update Direction.LEFT false [] =
      Except.ok (Game.init 20 30, true) :=
  claim_C1 (Game.init 20 30) Direction.LEFT false [] ⟨⟨3, 1⟩, Direction.RIGHT⟩
    (by decide) (by decide)

/-- Claim C9: the `shifted` parameter of `Board.update` is inert: for every
board state, direction and random-candidate stream, `update direction true`
and `update direction false` produce identical results. -/
theorem claim_C9 (b : Board) (d : Direction) (rands : List Point) :
    b.update d true rands = b.update d false rands := rfl

/-- Claim C5: every terminating call to `Board.new_apple` (with all random
candidates drawn by `randint` inside the grid, as `randint(0, width-1)` and
`randint(0, height-1)` guarantee) appends exactly one point to the apple
list; that point lies within the grid and is not an obstacle, an existing
apple, or a snake body point at call time, and no other board field is
modified. -/
theorem claim_C5 (b : Board) (rands : List Point) (b' : Board)
    (hin : ∀ p ∈ rands, b.within_borders p = true)
    (hok : b.new_apple rands = Except.ok b') :
    ∃ a, b'.apples = b.apples ++ [a] ∧ b.within_borders a = true ∧
      a ∉ b.obstacles ∧ a ∉ b.apples ∧ a ∉ b.snake.body_points ∧
      b'.width = b.width ∧ b'.height = b.height ∧ b'.obstacles = b.obstacles ∧
      b'.snake = b.snake ∧ b'.score = b.score := by
  obtain ⟨a, ha, hb', h1, h2, h3⟩ := new_apple_ok b rands b' hok
  subst hb'
  exact ⟨a, rfl, hin a ha, h1, h2, h3, rfl, rfl, rfl, rfl, rfl⟩

/-- Witness for C5: placing an apple on the fresh board with candidate
(10,10) appends exactly that point and touches nothing else. -/
theorem claim_C5_witness :
    ∃ a, ({ Game.init 20 30 with apples := [⟨15, 10⟩, ⟨10, 10⟩] } : Board).apples =
        (Game.init 20 30).apples ++ [a] ∧
      (Game.init 20 30).within_borders a = true ∧
      a ∉ (Game.init 20 30).obstacles ∧ a ∉ (Game.init 20 30).apples ∧
      a ∉ (Game.init 20 30).snake.body_points ∧
      ({ Game.init 20 30 with apples := [⟨15, 10⟩, ⟨10, 10⟩] } : Board).width =
        (Game.init 20 30).width ∧
      ({ Game.init 20 30 with apples := [⟨15, 10⟩, ⟨10, 10⟩] } : Board).height =
        (Game.init 20 30).height ∧
      ({ Game.init 20 30 with apples := [⟨15, 10⟩, ⟨10, 10⟩] } : Board).obstacles =
        (Game.init 20 30).obstacles ∧
      ({ Game.init 20 30 with apples := [⟨15, 10⟩, ⟨10, 10⟩] } : Board).snake =
        (Game.init 20 30).snake ∧
      ({ Game.init 20 30 with apples := [⟨15, 10⟩, ⟨10, 10⟩] } : Board).score =
        (Game.init 20 30).score :=
  claim_C5 (Game.init 20 30) [⟨10, 10⟩] _ (by decide) (by decide)

/-- Claim C7: `Board.new_apple` retries with no iteration cap.  In the
fuel-stream model: on a board where every in-grid point is an obstacle, an
apple or a snake body point, every finite stream of in-grid candidates is
exhausted (each candidate is rejected, modelling non-termination of the
unbounded recursion), whereas any stream containing at least one free
candidate leads to termination with success. -/
theorem claim_C7 (b : Board) (rands : List Point) :
    ((∀ p ∈ rands, b.within_borders p = true) →
      (∀ p : Point, b.within_borders p = true →
        p ∈ b.obstacles ∨ p ∈ b.apples ∨ p ∈ b.snake.body_points) →
      b.new_apple rands = Except.error Err.randsExhausted) ∧
    ((∃ p ∈ rands, ¬(p ∈ b.obstacles ∨ p ∈ b.apples ∨ p ∈ b.snake.body_points)) →
      ∃ b', b.new_apple rands = Except.ok b') := by
  constructor
  · intro hin hfull
    exact new_apple_full b rands fun p hp => hfull p (hin p hp)
  · exact new_apple_exists_ok b rands

/-- Witness for C7: on a fully saturated 1×1 board every candidate stream is
exhausted, while on the fresh 30×20 board a stream containing the free cell
(10,10) terminates with success. -/
theorem claim_C7_witness :
    (Board.mk 1 1 [⟨0, 0⟩] ⟨[]⟩ [] 0).new_apple [⟨0, 0⟩] =
        Except.error Err.randsExhausted ∧
    ∃ b', (Game.init 20 30).new_apple [⟨10, 10⟩] = Except.ok b' := by
  constructor
  · apply (claim_C7 (Board.mk 1 1 [⟨0, 0⟩] ⟨[]⟩ [] 0) [⟨0, 0⟩]).1 (by decide)
    intro p hp
    rw [Board.within_borders, decide_eq_true_eq] at hp
    left
    rcases p with ⟨x, y⟩
    dsimp only at hp
    have hx : x = 0 := by omega
    have hy : y = 0 := by omega
    subst hx
    subst hy
    exact List.mem_singleton.mpr rfl
  · exact (claim_C7 (Game.init 20 30) [⟨10, 10⟩]).2 (by decide)

/-- Claim C2: for every non-reversal call to `Board.update` that completes,
the returned flag is false iff `next_pos` hits an obstacle or a point of the
body as adjusted by steps 3/4 (`postStepSnake`); on such a death the adjusted
body is the final body (no head appended); consequently a non-apple move into
an obstacle-free cell equal to the just-vacated tail point (and no other
body point) reports alive. -/
theorem claim_C2 (b b' : Board) (d : Direction) (s : Bool) (rands : List Point)
    (lp : BodyPart) (alive : Bool)
    (hlast : b.snake.body.getLast? = some lp)
    (hrev : lp.direction.opposite d = false)
    (hup : b.update d s rands = Except.ok (b', alive)) :
    (alive = false ↔
      (lp.point + units d ∈ b.obstacles ∨
        lp.point + units d ∈ (postStepSnake b (lp.point + units d)).body_points)) ∧
    (alive = false → b'.snake = postStepSnake b (lp.point + units d)) ∧
    (lp.point + units d ∉ b.apples → lp.point + units d ∉ b.obstacles →
      lp.point + units d ∉ Snake.body_points ⟨b.snake.body.tail⟩ → alive = true) := by
  obtain ⟨b1, hap, hdm⟩ := update_ok_elim b d s rands lp hlast hrev b' alive hup
  obtain ⟨hw, hh, hobs⟩ := applePhase_preserves b _ rands b1 hap
  have hsnake : b1.snake = postStepSnake b (lp.point + units d) := by
    rcases applePhase_ok b _ rands b1 hap with ⟨hmem, a, _, _, _, hb1⟩ | ⟨hmem, hb1⟩
    · subst hb1
      simp [postStepSnake, hmem]
    · subst hb1
      simp [postStepSnake, hmem]
  rcases deathOrMove_ok b1 d _ b' alive hdm with ⟨ha, hd, hb'⟩ | ⟨ha, hd, lp2, hl2, hb'⟩
  · subst ha
    rw [hobs, hsnake] at hd
    refine ⟨⟨fun _ => hd, fun _ => rfl⟩, fun _ => by rw [hb', hsnake], ?_⟩
    intro hna hno hnt
    exfalso
    rcases hd with hd | hd
    · exact hno hd
    · rw [postStepSnake, if_neg hna] at hd
      exact hnt hd
  · subst ha
    rw [hobs, hsnake] at hd
    exact ⟨⟨fun hfalse => absurd hfalse (by simp), fun hcond => absurd hcond hd⟩,
      fun hfalse => absurd hfalse (by simp), fun _ _ _ => rfl⟩

/-- Witness for C2: wall death on the fresh board — from head (3,1) facing
RIGHT, moving UP lands on the perimeter cell (3,0), so `update` reports
death and leaves the tail-popped body as the final body. -/
theorem claim_C2_witness :
    ((false = false) ↔
      ((⟨3, 1⟩ : Point) + units Direction.UP ∈ (Game.init 20 30).obstacles ∨
        (⟨3, 1⟩ : Point) + units Direction.UP ∈
          (postStepSnake (Game.init 20 30)
            ((⟨3, 1⟩ : Point) + units Direction.UP)).body_points)) ∧
    ((false = false) →
      ({ Game.init 20 30 with
          snake := ⟨[⟨⟨2, 1⟩, Direction.RIGHT⟩, ⟨⟨3, 1⟩, Direction.RIGHT⟩]⟩ } : Board).snake =
        postStepSnake (Game.init 20 30) ((⟨3, 1⟩ : Point) + units Direction.UP)) ∧
    ((⟨3, 1⟩ : Point) + units Direction.UP ∉ (Game.init 20 30).apples →
      (⟨3, 1⟩ : Point) + units Direction.UP ∉ (Game.init 20 30).obstacles →
      (⟨3, 1⟩ : Point) + units Direction.UP ∉
        Snake.body_points ⟨(Game.init 20 30).snake.body.tail⟩ →
      false = true) :=
  claim_C2 (Game.init 20 30)
    { Game.init 20 30 with
        snake := ⟨[⟨⟨2, 1⟩, Direction.RIGHT⟩, ⟨⟨3, 1⟩, Direction.RIGHT⟩]⟩ }
    Direction.UP false [] ⟨⟨3, 1⟩, Direction.RIGHT⟩ false
    (by decide) (by decide) (by decide)

/-- Claim C3: a surviving non-reversal apple move grows the snake by one
segment, increments the score by exactly one, removes the consumed apple
point from the apple list and appends exactly one replacement apple that
collides with no obstacle, no snake body point and no other apple. -/
theorem claim_C3 (b b' : Board) (d : Direction) (s : Bool) (rands : List Point)
    (lp : BodyPart)
    (hlast : b.snake.body.getLast? = some lp)
    (hrev : lp.direction.opposite d = false)
    (happle : lp.point + units d ∈ b.apples)
    (hup : b.update d s rands = Except.ok (b', true)) :
    b'.snake.body.length = b.snake.body.length + 1 ∧
    b'.score = b.score + 1 ∧
    ∃ a, b'.apples = b.apples.erase (lp.point + units d) ++ [a] ∧
      a ∉ b.obstacles ∧ a ∉ b.apples.erase (lp.point + units d) ∧
      a ∉ b.snake.body_points := by
  obtain ⟨b1, hap, hdm⟩ := update_ok_elim b d s rands lp hlast hrev b' true hup
  rcases applePhase_ok b _ rands b1 hap with ⟨hmem, a, ha1, ha2, ha3, hb1⟩ | ⟨hmem, _⟩
  · rcases deathOrMove_ok b1 d _ b' true hdm with ⟨hfalse, _, _⟩ | ⟨_, _, lp2, hl2, hb'⟩
    · exact absurd hfalse (by simp)
    · subst hb1
      subst hb'
      dsimp only at hl2 ⊢
      have hne : b.snake.body ≠ [] := by
        intro hnil
        rw [hnil] at hlast
        exact Option.noConfusion hlast
      have hlen : 1 ≤ b.snake.body.length := List.length_pos.mpr hne
      refine ⟨?_, rfl, a, rfl, ha1, ha2, ha3⟩
      rw [List.length_append, List.length_dropLast]
      simp only [List.length_cons, List.length_nil]
      omega
  · exact absurd happle hmem

/-- Witness for C3: on the fresh board with the apple moved to (4,1), a RIGHT
move eats it — the snake grows to length 4, the score becomes 1, (4,1)
leaves the apple list and the free candidate (10,10) is the replacement. -/
theorem claim_C3_witness :
    ({ Game.init 20 30 with
        snake := ⟨[⟨⟨1, 1⟩, Direction.RIGHT⟩, ⟨⟨2, 1⟩, Direction.RIGHT⟩,
          ⟨⟨3, 1⟩, Direction.RIGHT⟩, ⟨⟨4, 1⟩, Direction.RIGHT⟩]⟩,
        apples := [⟨10, 10⟩], score := 1 } : Board).snake.body.length =
      ({ Game.init 20 30 with apples := [⟨4, 1⟩] } : Board).snake.body.length + 1 ∧
    ({ Game.init 20 30 with
        snake := ⟨[⟨⟨1, 1⟩, Direction.RIGHT⟩, ⟨⟨2, 1⟩, Direction.RIGHT⟩,
          ⟨⟨3, 1⟩, Direction.RIGHT⟩, ⟨⟨4, 1⟩, Direction.RIGHT⟩]⟩,
        apples := [⟨10, 10⟩], score := 1 } : Board).score =
      ({ Game.init 20 30 with apples := [⟨4, 1⟩] } : Board).score + 1 ∧
    ∃ a, ({ Game.init 20 30 with
        snake := ⟨[⟨⟨1, 1⟩, Direction.RIGHT⟩, ⟨⟨2, 1⟩, Direction.RIGHT⟩,
          ⟨⟨3, 1⟩, Direction.RIGHT⟩, ⟨⟨4, 1⟩, Direction.RIGHT⟩]⟩,
        apples := [⟨10, 10⟩], score := 1 } : Board).apples =
        ({ Game.init 20 30 with apples := [⟨4, 1⟩] } : Board).apples.erase
            ((⟨3, 1⟩ : Point) + units Direction.RIGHT) ++ [a] ∧
      a ∉ ({ Game.init 20 30 with apples := [⟨4, 1⟩] } : Board).obstacles ∧
      a ∉ ({ Game.init 20 30 with apples := [⟨4, 1⟩] } : Board).apples.erase
            ((⟨3, 1⟩ : Point) + units Direction.RIGHT) ∧
      a ∉ ({ Game.init 20 30 with apples := [⟨4, 1⟩] } : Board).snake.body_points :=
  claim_C3 { Game.init 20 30 with apples := [⟨4, 1⟩] }
    { Game.init 20 30 with
        snake := ⟨[⟨⟨1, 1⟩, Direction.RIGHT⟩, ⟨⟨2, 1⟩, Direction.RIGHT⟩,
          ⟨⟨3, 1⟩, Direction.RIGHT⟩, ⟨⟨4, 1⟩, Direction.RIGHT⟩]⟩,
        apples := [⟨10, 10⟩], score := 1 }
    Direction.RIGHT false [⟨1, 1⟩, ⟨10, 10⟩] ⟨⟨3, 1⟩, Direction.RIGHT⟩
    (by decide) (by decide) (by decide) (by decide)

/-- Claim C4: a surviving non-reversal non-apple move pops the tail and
appends a new head at `next_pos` facing the input direction, leaving length,
score and apples unchanged, and overwrites the previous head's stored
direction with the input direction; in particular the basic-move scenario on
the fresh 30×20 board moves the snake from [(1,1),(2,1),(3,1)] to
[(2,1),(3,1),(4,1)], all facing RIGHT, and reports alive. -/
theorem claim_C4 (b b' : Board) (d : Direction) (s : Bool) (rands : List Point)
    (lp : BodyPart)
    (hlast : b.snake.body.getLast? = some lp)
    (hrev : lp.direction.opposite d = false)
    (hna : lp.point + units d ∉ b.apples)
    (hup : b.update d s rands = Except.ok (b', true)) :
    b'.snake.body =
      b.snake.body.tail.dropLast ++ [⟨lp.point, d⟩, ⟨lp.point + units d, d⟩] ∧
    b'.snake.body.length = b.snake.body.length ∧
    b'.score = b.score ∧ b'.apples = b.apples ∧
    (Game.init 20 30).update Direction.RIGHT false [] =
      Except.ok ({ Game.init 20 30 with
        snake := ⟨[⟨⟨2, 1⟩, Direction.RIGHT⟩, ⟨⟨3, 1⟩, Direction.RIGHT⟩,
          ⟨⟨4, 1⟩, Direction.RIGHT⟩]⟩ }, true) := by
  obtain ⟨b1, hap, hdm⟩ := update_ok_elim b d s rands lp hlast hrev b' true hup
  rcases applePhase_ok b _ rands b1 hap with ⟨hmem, _⟩ | ⟨hmem, hb1⟩
  · exact absurd hmem hna
  · rcases deathOrMove_ok b1 d _ b' true hdm with ⟨hfalse, _, _⟩ | ⟨_, _, lp2, hl2, hb'⟩
    · exact absurd hfalse (by simp)
    · subst hb1
      subst hb'
      dsimp only at hl2 ⊢
      have hlp : lp2 = lp := by
        cases hbody : b.snake.body with
        | nil =>
          rw [hbody] at hlast
          exact Option.noConfusion hlast
        | cons hd0 tl =>
          rw [hbody] at hl2 hlast
          dsimp only [List.tail_cons] at hl2
          cases tl with
          | nil => exact Option.noConfusion hl2
          | cons hd1 tl1 =>
            rw [List.getLast?_cons_cons] at hlast
            rw [hlast] at hl2
            injection hl2 with h
            exact h.symm
      subst hlp
      have htl : b.snake.body.tail ≠ [] := by
        intro h
        rw [h] at hl2
        exact Option.noConfusion hl2
      have hne : b.snake.body ≠ [] := by
        intro h
        rw [h] at hlast
        exact Option.noConfusion hlast
      refine ⟨rfl, ?_, rfl, rfl, by decide⟩
      rw [List.length_append, List.length_dropLast, List.length_tail]
      simp only [List.length_cons, List.length_nil]
      have h1 : 1 ≤ b.snake.body.length := List.length_pos.mpr hne
      have h2 : 1 ≤ b.snake.body.tail.length := List.length_pos.mpr htl
      rw [List.length_tail] at h2
      omega

/-- Witness for C4: the basic-move scenario itself — on the fresh board a
RIGHT move pops (1,1), appends head (4,1), and both length and score are
unchanged. -/
theorem claim_C4_witness :
    ({ Game.init 20 30 with
        snake := ⟨[⟨⟨2, 1⟩, Direction.RIGHT⟩, ⟨⟨3, 1⟩, Direction.RIGHT⟩,
          ⟨⟨4, 1⟩, Direction.RIGHT⟩]⟩ } : Board).snake.body =
      (Game.init 20 30).snake.body.tail.dropLast ++
        [⟨⟨3, 1⟩, Direction.RIGHT⟩,
          ⟨(⟨3, 1⟩ : Point) + units Direction.RIGHT, Direction.RIGHT⟩] ∧
    ({ Game.init 20 30 with
        snake := ⟨[⟨⟨2, 1⟩, Direction.RIGHT⟩, ⟨⟨3, 1⟩, Direction.RIGHT⟩,
          ⟨⟨4, 1⟩, Direction.RIGHT⟩]⟩ } : Board).snake.body.length =
      (Game.init 20 30).snake.body.length ∧
    ({ Game.init 20 30 with
        snake := ⟨[⟨⟨2, 1⟩, Direction.RIGHT⟩, ⟨⟨3, 1⟩, Direction.RIGHT⟩,
          ⟨⟨4, 1⟩, Direction.RIGHT⟩]⟩ } : Board).score = (Game.init 20 30).score ∧
    ({ Game.init 20 30 with
        snake := ⟨[⟨⟨2, 1⟩, Direction.RIGHT⟩, ⟨⟨3, 1⟩, Direction.RIGHT⟩,
          ⟨⟨4, 1⟩, Direction.RIGHT⟩]⟩ } : Board).apples = (Game.init 20 30).apples ∧
    (Game.init 20 30).update Direction.RIGHT false [] =
      Except.ok ({ Game.init 20 30 with
        snake := ⟨[⟨⟨2, 1⟩, Direction.RIGHT⟩, ⟨⟨3, 1⟩, Direction.RIGHT⟩,
          ⟨⟨4, 1⟩, Direction.RIGHT⟩]⟩ }, true) :=
  claim_C4 (Game.init 20 30)
    { Game.init 20 30 with
        snake := ⟨[⟨⟨2, 1⟩, Direction.RIGHT⟩, ⟨⟨3, 1⟩, Direction.RIGHT⟩,
          ⟨⟨4, 1⟩, Direction.RIGHT⟩]⟩ }
    Direction.RIGHT false [] ⟨⟨3, 1⟩, Direction.RIGHT⟩
    (by decide) (by decide) (by decide) (by decide)

/-- Claim C8: `update` either fully commits or reports death in the one call;
in the apple-and-death-cell corner case it returns false with exactly the
step-3 effects: the body is unchanged (no head appended), the score is
incremented, the consumed apple is removed and one replacement apple (free at
spawn time) has been appended, and the grid and obstacles are untouched. -/
theorem claim_C8 (b b' : Board) (d : Direction) (s : Bool) (rands : List Point)
    (lp : BodyPart) (alive : Bool)
    (hlast : b.snake.body.getLast? = some lp)
    (hrev : lp.direction.opposite d = false)
    (happle : lp.point + units d ∈ b.apples)
    (hdeath : lp.point + units d ∈ b.obstacles ∨ lp.point + units d ∈ b.snake.body_points)
    (hup : b.update d s rands = Except.ok (b', alive)) :
    alive = false ∧ b'.snake = b.snake ∧ b'.score = b.score + 1 ∧
    b'.width = b.width ∧ b'.height = b.height ∧ b'.obstacles = b.obstacles ∧
    ∃ a, b'.apples = b.apples.erase (lp.point + units d) ++ [a] ∧
      a ∉ b.obstacles ∧ a ∉ b.apples.erase (lp.point + units d) ∧
      a ∉ b.snake.body_points := by
  obtain ⟨b1, hap, hdm⟩ := update_ok_elim b d s rands lp hlast hrev b' alive hup
  rcases applePhase_ok b _ rands b1 hap with ⟨hmem, a, ha1, ha2, ha3, hb1⟩ | ⟨hmem, _⟩
  · subst hb1
    rcases deathOrMove_ok _ d _ b' alive hdm with ⟨ha, _, hb'⟩ | ⟨_, hd, _, _, _⟩
    · subst hb'
      exact ⟨ha, rfl, rfl, rfl, rfl, rfl, a, rfl, ha1, ha2, ha3⟩
    · exact absurd hdeath hd
  · exact absurd happle hmem

/-- Witness for C8: on the fresh board with the apple moved onto the wall
cell (3,0), moving UP eats the apple, spawns the replacement (10,10),
increments the score, and still reports death with the body unchanged. -/
theorem claim_C8_witness :
    false = false ∧
    ({ Game.init 20 30 with apples := [⟨10, 10⟩], score := 1 } : Board).snake =
      ({ Game.init 20 30 with apples := [⟨3, 0⟩] } : Board).snake ∧
    ({ Game.init 20 30 with apples := [⟨10, 10⟩], score := 1 } : Board).score =
      ({ Game.init 20 30 with apples := [⟨3, 0⟩] } : Board).score + 1 ∧
    ({ Game.init 20 30 with apples := [⟨10, 10⟩], score := 1 } : Board).width =
      ({ Game.init 20 30 with apples := [⟨3, 0⟩] } : Board).width ∧
    ({ Game.init 20 30 with apples := [⟨10, 10⟩], score := 1 } : Board).height =
      ({ Game.init 20 30 with apples := [⟨3, 0⟩] } : Board).height ∧
    ({ Game.init 20 30 with apples := [⟨10, 10⟩], score := 1 } : Board).obstacles =
      ({ Game.init 20 30 with apples := [⟨3, 0⟩] } : Board).obstacles ∧
    ∃ a, ({ Game.init 20 30 with apples := [⟨10, 10⟩], score := 1 } : Board).apples =
        ({ Game.init 20 30 with apples := [⟨3, 0⟩] } : Board).apples.erase
          ((⟨3, 1⟩ : Point) + units Direction.UP) ++ [a] ∧
      a ∉ ({ Game.init 20 30 with apples := [⟨3, 0⟩] } : Board).obstacles ∧
      a ∉ ({ Game.init 20 30 with apples := [⟨3, 0⟩] } : Board).apples.erase
          ((⟨3, 1⟩ : Point) + units Direction.UP) ∧
      a ∉ ({ Game.init 20 30 with apples := [⟨3, 0⟩] } : Board).snake.body_points :=
  claim_C8 { Game.init 20 30 with apples := [⟨3, 0⟩] }
    { Game.init 20 30 with apples := [⟨10, 10⟩], score := 1 }
    Direction.UP false [⟨10, 10⟩] ⟨⟨3, 1⟩, Direction.RIGHT⟩ false
    (by decide) (by decide) (by decide) (by decide) (by decide)

/-- Claim C10: `Board.update` performs no out-of-bounds deque access when
the snake has at least 2 segments; with exactly 1 segment, a non-reversal
move into a free non-apple cell empties the body by the tail pop and then
the `body[-1]` direction rewrite is an out-of-bounds access (`IndexError`). -/
theorem claim_C10 (b : Board) (d : Direction) (s : Bool) (rands : List Point)
    (bp : BodyPart) :
    (2 ≤ b.snake.body.length → b.update d s rands ≠ Except.error Err.indexError) ∧
    (b.snake.body = [bp] → bp.direction.opposite d = false →
      bp.point + units d ∉ b.apples → bp.point + units d ∉ b.obstacles →
      bp.point + units d ∉ b.snake.body_points →
      b.update d s rands = Except.error Err.indexError) := by
  constructor
  · intro hlen hup
    cases hlast : b.snake.body.getLast? with
    | none =>
      have hnil : b.snake.body = [] := List.getLast?_eq_none_iff.mp hlast
      rw [hnil] at hlen
      simp at hlen
    | some lp =>
      rw [Board.update, hlast] at hup
      by_cases hrev : lp.direction.opposite d = true
      · simp only [hrev, if_true] at hup
        exact Except.noConfusion hup
      · have hrev' : lp.direction.opposite d = false := by
          revert hrev
          cases lp.direction.opposite d <;> simp
        simp only [hrev', Bool.false_eq_true, if_false] at hup
        cases hq : b.applePhase (lp.point + units d) rands with
        | error e =>
          rw [hq] at hup
          have hup' : (Except.error e : Except Err (Board × Bool)) =
              Except.error Err.indexError := hup
          injection hup' with he'
          have he := applePhase_error_eq _ _ _ _ hq
          rw [he'] at he
          exact Err.noConfusion he
        | ok b1 =>
          rw [hq] at hup
          have hup' : b1.deathOrMove d (lp.point + units d) =
              Except.error Err.indexError := hup
          clear hup
          rename' hup' => hup
          rw [Board.deathOrMove] at hup
          by_cases hd : lp.point + units d ∈ b1.obstacles ∨
              lp.point + units d ∈ b1.snake.body_points
          · rw [if_pos hd] at hup
            exact Except.noConfusion hup
          · rw [if_neg hd] at hup
            cases hl : b1.snake.body.getLast? with
            | some lp2 =>
              rw [hl] at hup
              exact Except.noConfusion hup
            | none =>
              have hnil : b1.snake.body = [] := List.getLast?_eq_none_iff.mp hl
              rcases applePhase_ok _ _ _ _ hq with ⟨_, a, _, _, _, hb1⟩ | ⟨_, hb1⟩
              · subst hb1
                dsimp only at hnil
                rw [hnil] at hlen
                simp at hlen
              · subst hb1
                dsimp only at hnil
                have hlt := congrArg List.length hnil
                rw [List.length_tail] at hlt
                simp only [List.length_nil] at hlt
                omega
  · intro hbody hrev hna hno _
    have hlast : b.snake.body.getLast? = some bp := by
      rw [hbody]
      rfl
    rw [Board.update, hlast]
    simp only [hrev, Bool.false_eq_true, if_false]
    have hq : b.applePhase (bp.point + units d) rands =
        Except.ok { b with snake := ⟨b.snake.body.tail⟩ } := by
      rw [Board.applePhase, if_neg hna]
    rw [hq]
    show Board.deathOrMove { b with snake := ⟨b.snake.body.tail⟩ } d
        (bp.point + units d) = Except.error Err.indexError
    rw [Board.deathOrMove]
    have hcond : ¬(bp.point + units d ∈
          ({ b with snake := ⟨b.snake.body.tail⟩ } : Board).obstacles ∨
        bp.point + units d ∈
          ({ b with snake := ⟨b.snake.body.tail⟩ } : Board).snake.body_points) := by
      rintro (h | h)
      · exact hno h
      · dsimp only at h
        rw [hbody] at h
        simp [Snake.body_points] at h
    rw [if_neg hcond]
    have hl : ({ b with snake := ⟨b.snake.body.tail⟩ } : Board).snake.body.getLast? =
        none := by
      dsimp only
      rw [hbody]
      rfl
    rw [hl]

/-- Witness for C10: the fresh 3-segment board never raises the index error,
while a 1-segment snake at (5,5) moving RIGHT into the free cell (6,5) does. -/
theorem claim_C10_witness :
    (Game.init 20 30).update Direction.RIGHT false [] ≠
        Except.error Err.indexError ∧
    ({ Game.init 20 30 with
        snake := ⟨[⟨⟨5, 5⟩, Direction.RIGHT⟩]⟩ } : Board).update Direction.RIGHT
        false [] = Except.error Err.indexError :=
  ⟨(claim_C10 (Game.init 20 30) Direction.RIGHT false [] ⟨⟨5, 5⟩, Direction.RIGHT⟩).1
      (by decide),
    (claim_C10 { Game.init 20 30 with snake := ⟨[⟨⟨5, 5⟩, Direction.RIGHT⟩]⟩ }
        Direction.RIGHT false [] ⟨⟨5, 5⟩, Direction.RIGHT⟩).2
      (by decide) (by decide) (by decide) (by decide) (by decide)⟩

/-- Claim C6: for every positive height and width, `Game.init` builds a board
whose snake is exactly [(1,1,RIGHT),(2,1,RIGHT),(3,1,RIGHT)] (tail to head),
whose obstacle set is exactly the in-grid perimeter cells, whose apple list
is exactly the single centered point (width//2, height//2), and whose score
is 0 — so every (re-)initialization resets the score. -/
theorem claim_C6 (height width : Int) (p : Point)
    (hh : 0 < height) (hw : 0 < width) :
    (Game.init height width).snake.body =
      [⟨⟨1, 1⟩, Direction.RIGHT⟩, ⟨⟨2, 1⟩, Direction.RIGHT⟩,
        ⟨⟨3, 1⟩, Direction.RIGHT⟩] ∧
    (p ∈ (Game.init height width).obstacles ↔
      (0 ≤ p.x ∧ p.x < width ∧ 0 ≤ p.y ∧ p.y < height ∧
        (p.x = 0 ∨ p.x = width - 1 ∨ p.y = 0 ∨ p.y = height - 1))) ∧
    (Game.init height width).apples = [⟨Int.fdiv width 2, Int.fdiv height 2⟩] ∧
    (Game.init height width).score = 0 := by
  refine ⟨rfl, ?_, rfl, rfl⟩
  show p ∈ Game.initObstacles height width ↔ _
  rw [Game.initObstacles]
  constructor
  · intro hp
    obtain ⟨i, hi, hp2⟩ := List.mem_flatMap.mp hp
    obtain ⟨j, hj, heq⟩ := List.mem_filterMap.mp hp2
    rw [List.mem_range] at hi hj
    by_cases hc : (i : Int) = 0 ∨ (i : Int) = height - 1 ∨ (j : Int) = 0 ∨
        (j : Int) = width - 1
    · rw [if_pos hc] at heq
      injection heq with heq
      subst heq
      dsimp only
      exact ⟨by omega, by omega, by omega, by omega, by tauto⟩
    · rw [if_neg hc] at heq
      exact Option.noConfusion heq
  · rintro ⟨hx0, hxw, hy0, hyh, hcase⟩
    apply List.mem_flatMap.mpr
    refine ⟨p.y.toNat, List.mem_range.mpr (by omega), ?_⟩
    apply List.mem_filterMap.mpr
    refine ⟨p.x.toNat, List.mem_range.mpr (by omega), ?_⟩
    have hxx : ((p.x.toNat : Int)) = p.x := by omega
    have hyy : ((p.y.toNat : Int)) = p.y := by omega
    rw [if_pos]
    · rcases p with ⟨x, y⟩
      dsimp only at hxx hyy ⊢
      rw [hxx, hyy]
    · rw [hxx, hyy]
      tauto

/-- Witness for C6: the reference 30×20 board — fixed starting snake, score
0, centered apple (15,10), and (0,5) is a perimeter obstacle. -/
theorem claim_C6_witness :
    (Game.init 20 30).snake.body =
      [⟨⟨1, 1⟩, Direction.RIGHT⟩, ⟨⟨2, 1⟩, Direction.RIGHT⟩,
        ⟨⟨3, 1⟩, Direction.RIGHT⟩] ∧
    ((⟨0, 5⟩ : Point) ∈ (Game.init 20 30).obstacles ↔
      (0 ≤ (⟨0, 5⟩ : Point).x ∧ (⟨0, 5⟩ : Point).x < 30 ∧
        0 ≤ (⟨0, 5⟩ : Point).y ∧ (⟨0, 5⟩ : Point).y < 20 ∧
        ((⟨0, 5⟩ : Point).x = 0 ∨ (⟨0, 5⟩ : Point).x = 30 - 1 ∨
          (⟨0, 5⟩ : Point).y = 0 ∨ (⟨0, 5⟩ : Point).y = 20 - 1))) ∧
    (Game.init 20 30).apples = [⟨Int.fdiv 30 2, Int.fdiv 20 2⟩] ∧
    (Game.init 20 30).score = 0 :=
  claim_C6 20 30 ⟨0, 5⟩ (by decide) (by decide)

end TuiSnake
